import Mathlib

/-!
Shallow embedding of the `CanvasGen` contract
(`src/community-canvas/foundry/src/CanvasGen.sol` and the variant in
`src/unnamed/part_003`; the two differ only in that the `claim` of the latter
takes an `imageCid` string and stores it, and in where `generateCanvas`
increments the id counter — equivalent under revert semantics).

Modelling choices:
* `uint256`/`uint32`/`uint8` values are `Nat` (no arithmetic here ever
  approaches an overflow boundary; the only additions are
  `startBlock + maxDurationBlocks` comparisons, kept as plain `Nat`).
* Solidity `address` is `Nat`; the zero address is `0`.  A mapping entry
  with `owner = 0` is the "absent" zero struct, exactly as in the source
  (`if (canvas.owner == address(0)) revert UnknownCanvas`).
* Storage mappings are total functions with the EVM zero default.
* A reverting call is `Except.error e`: the EVM rolls back every write of
  the transaction, so an error result carries no state.
* `block.number` is the explicit `blockNumber` argument of each call
  (the `currentTick` of the spec), `msg.sender` the explicit `sender`.
* Events are accumulated in an `events` list in the state.
* `nonReentrant` needs no model: the embedding is single-threaded and
  `_safeMint` to an externally-owned account performs no callback.
-/

/-- Error type: one constructor per `error` declaration of the contract,
plus the ERC721 mint failure (`_safeMint` reverts when the token id is
already minted or the receiver is the zero address). -/
inductive CanvasError where
  | CanvasFinished (canvasId : Nat)
  | CanvasNotFinished (canvasId : Nat)
  | NotCanvasOwner (canvasId : Nat) (expected : Nat)
  | CanvasAlreadyClaimed (canvasId : Nat)
  | CoordinatesOOB (x y : Nat)
  | UnknownCanvas (canvasId : Nat)
  | CoordinatesCantBeZero (x y : Nat)
  | DurationCantBeZero (maxDurationBlocks : Nat)
  | ERC721InvalidToken
  | ERC721MintError (tokenId : Nat)
  deriving Repr, DecidableEq

/-- Source `struct CanvasConfig` (part_003 layout; the CanvasGen.sol variant lacks
`imageCid`, which is then constantly `""`). -/
structure CanvasConfig where
  x : Nat
  y : Nat
  startBlock : Nat
  maxDurationBlocks : Nat
  isComplete : Bool
  isClaimed : Bool
  mostRecentUpdatedBlock : Nat
  owner : Nat
  imageCid : String
  deriving Repr, DecidableEq

/-- The EVM zero value of `CanvasConfig`: what an untouched mapping slot holds. -/
def zeroConfig : CanvasConfig :=
  { x := 0, y := 0, startBlock := 0, maxDurationBlocks := 0,
    isComplete := false, isClaimed := false, mostRecentUpdatedBlock := 0,
    owner := 0, imageCid := "" }

/-- Events emitted by the contract. -/
inductive CanvasEvent where
  | PixelColored (editor canvasId x y color : Nat)
  | CanvasGenerated (canvasId owner x y startBlock maxDurationBlocks : Nat)
  | CanvasClaimed (canvasId owner : Nat)
  deriving Repr, DecidableEq

/-- Contract storage plus the ERC721 bookkeeping the claims need.
`tokenOwner id = 0` means the token does not exist (`_ownerOf` zero). -/
structure ChainState where
  canvases : Nat → CanvasConfig
  color : Nat → Nat → Nat → Nat
  colorSet : Nat → Nat → Nat → Bool
  lastCanvasId : Nat
  tokenOwner : Nat → Nat
  events : List CanvasEvent

/-- Pointwise update of a one-key mapping. -/
def upd {α : Type} (f : Nat → α) (k : Nat) (v : α) : Nat → α :=
  fun i => if i = k then v else f i

/-- Pointwise update of a three-key mapping. -/
def upd3 {α : Type} (f : Nat → Nat → Nat → α) (k1 k2 k3 : Nat) (v : α) :
    Nat → Nat → Nat → α :=
  fun i j l => if i = k1 ∧ j = k2 ∧ l = k3 then v else f i j l

/-- Deployment state: `s_lastCanvasId = 1`, everything else zeroed. -/
def initState : ChainState :=
  { canvases := fun _ => zeroConfig,
    color := fun _ _ _ => 0,
    colorSet := fun _ _ _ => false,
    lastCanvasId := 1,
    tokenOwner := fun _ => 0,
    events := [] }

/-- Source constant `uint8 public constant DEFAULT_COLOR = 255`. -/
def DEFAULT_COLOR : Nat := 255

/-- Source `modifier updateCompletion(uint256 canvasId)`: reverts `UnknownCanvas`
when the slot is empty, otherwise sets `isComplete` once
`block.number >= startBlock + maxDurationBlocks`. -/
def updateCompletion (s : ChainState) (blockNumber canvasId : Nat) :
    Except CanvasError ChainState :=
  let canvas := s.canvases canvasId
  if canvas.owner = 0 then .error (.UnknownCanvas canvasId)
  else if ¬canvas.isComplete ∧ canvas.startBlock + canvas.maxDurationBlocks ≤ blockNumber then
    .ok { s with canvases := upd s.canvases canvasId { canvas with isComplete := true } }
  else .ok s

/-- Source `modifier onlyCanvasOwner(uint256 canvasId)`. -/
def onlyCanvasOwner (s : ChainState) (sender canvasId : Nat) :
    Except CanvasError Unit :=
  let canvas := s.canvases canvasId
  if canvas.owner = 0 then .error (.UnknownCanvas canvasId)
  else if canvas.owner ≠ sender then .error (.NotCanvasOwner canvasId canvas.owner)
  else .ok ()

/-- Source `function generateCanvas(uint32 x, uint32 y, uint256 maxDurationBlocks)`.
CanvasGen.sol performs `canvasId = s_lastCanvasId++` before the guards; a
revert rolls the increment back, which the error branches here reflect by
returning no state (part_003 orders the guards first — same function). -/
def generateCanvas (s : ChainState) (blockNumber sender x y maxDurationBlocks : Nat) :
    Except CanvasError (ChainState × Nat) :=
  let canvasId := s.lastCanvasId
  if x = 0 ∨ y = 0 then .error (.CoordinatesCantBeZero x y)
  else if maxDurationBlocks = 0 then .error (.DurationCantBeZero maxDurationBlocks)
  else
    let cfg : CanvasConfig :=
      { x := x, y := y, startBlock := blockNumber,
        maxDurationBlocks := maxDurationBlocks,
        isComplete := false, isClaimed := false,
        mostRecentUpdatedBlock := blockNumber, owner := sender, imageCid := "" }
    .ok ({ s with
            canvases := upd s.canvases canvasId cfg,
            lastCanvasId := s.lastCanvasId + 1,
            events := s.events ++
              [.CanvasGenerated canvasId sender x y blockNumber maxDurationBlocks] },
         canvasId)

/-- Source `function setPixel(uint256 canvasId, uint32 x, uint32 y, uint8 color)`
with the `updateCompletion` modifier. -/
def setPixel (s : ChainState) (blockNumber sender canvasId x y newColor : Nat) :
    Except CanvasError ChainState :=
  match updateCompletion s blockNumber canvasId with
  | .error e => .error e
  | .ok s =>
    let canvas := s.canvases canvasId
    if canvas.isComplete then .error (.CanvasFinished canvasId)
    else if canvas.x ≤ x ∨ canvas.y ≤ y then .error (.CoordinatesOOB x y)
    else .ok { s with
      color := upd3 s.color canvasId x y newColor,
      colorSet := upd3 s.colorSet canvasId x y true,
      canvases := upd s.canvases canvasId { canvas with mostRecentUpdatedBlock := blockNumber },
      events := s.events ++ [.PixelColored sender canvasId x y newColor] }

/-- Internal `_safeMint(to, canvasId)`: reverts when the token already exists or the
receiver is the zero address, otherwise records the owner. -/
def mintNft (s : ChainState) (canvasId rcpt : Nat) : Except CanvasError ChainState :=
  if rcpt = 0 ∨ s.tokenOwner canvasId ≠ 0 then .error (.ERC721MintError canvasId)
  else .ok { s with tokenOwner := upd s.tokenOwner canvasId rcpt }

/-- Source `function claim(uint256 canvasId, string calldata imageCid)` (part_003;
CanvasGen.sol is the same function without the `imageCid` store).  Modifier
order: `nonReentrant`, `updateCompletion`, `onlyCanvasOwner`, then the body. -/
def claim (s : ChainState) (blockNumber sender canvasId : Nat) (imageCid : String) :
    Except CanvasError ChainState :=
  match updateCompletion s blockNumber canvasId with
  | .error e => .error e
  | .ok s =>
    match onlyCanvasOwner s sender canvasId with
    | .error e => .error e
    | .ok _ =>
      let canvas := s.canvases canvasId
      if ¬canvas.isComplete then .error (.CanvasNotFinished canvasId)
      else if canvas.isClaimed then .error (.CanvasAlreadyClaimed canvasId)
      else
        let canvas2 := { canvas with isClaimed := true, imageCid := imageCid }
        let s := { s with canvases := upd s.canvases canvasId canvas2 }
        match mintNft s canvasId canvas.owner with
        | .error e => .error e
        | .ok s => .ok { s with events := s.events ++ [.CanvasClaimed canvasId canvas.owner] }

/-- Source `function getCanvas(uint256 canvasId)`: a `view`, returns the stored
struct unchanged; no `updateCompletion` modifier is (or can be) applied. -/
def getCanvas (s : ChainState) (canvasId : Nat) : Except CanvasError CanvasConfig :=
  let c := s.canvases canvasId
  if c.owner = 0 then .error (.UnknownCanvas canvasId) else .ok c

/-- Source `function getPixel(uint256 canvasId, uint32 x, uint32 y)`. -/
def getPixel (s : ChainState) (canvasId x y : Nat) : Except CanvasError Nat :=
  let canvas := s.canvases canvasId
  if canvas.owner = 0 then .error (.UnknownCanvas canvasId)
  else if canvas.x ≤ x ∨ canvas.y ≤ y then .error (.CoordinatesOOB x y)
  else if s.colorSet canvasId x y then .ok (s.color canvasId x y)
  else .ok DEFAULT_COLOR

/-- The derived `status` of the spec (§3): `Claimed` if `isClaimed`, else
`Complete` if `isComplete`, else `Open`. -/
inductive Status where
  | Open
  | Complete
  | Claimed
  deriving Repr, DecidableEq

def CanvasConfig.status (c : CanvasConfig) : Status :=
  if c.isClaimed then .Claimed else if c.isComplete then .Complete else .Open

/-- One external transaction: the mutating and view entry points of the contract. -/
inductive Op where
  | generate (blockNumber sender x y maxDurationBlocks : Nat)
  | setPix (blockNumber sender canvasId x y color : Nat)
  | doClaim (blockNumber sender canvasId : Nat) (imageCid : String)
  | viewCanvas (canvasId : Nat)
  | viewPixel (canvasId x y : Nat)

/-- Transaction semantics: a reverting call leaves the chain state exactly
as it was; `view` functions never write. -/
def step (s : ChainState) (op : Op) : ChainState :=
  match op with
  | .generate b sender x y d =>
    match generateCanvas s b sender x y d with
    | .ok (t, _) => t
    | .error _ => s
  | .setPix b sender id x y c =>
    match setPixel s b sender id x y c with
    | .ok t => t
    | .error _ => s
  | .doClaim b sender id cid =>
    match claim s b sender id cid with
    | .ok t => t
    | .error _ => s
  | .viewCanvas _ => s
  | .viewPixel _ _ _ => s

/-- States reachable from deployment by a sequence of transactions. -/
def execOps (ops : List Op) : ChainState :=
  ops.foldl step initState

/-- Running a transaction sequence from an arbitrary state. -/
def execFrom (s : ChainState) (ops : List Op) : ChainState :=
  ops.foldl step s

/-- Whether a call succeeded. -/
def resIsOk {α : Type} : Except CanvasError α → Bool
  | .ok _ => true
  | .error _ => false

/-- The canvases map of the result state of a call (zero state on error). -/
def resCanvases (e : Except CanvasError ChainState) (id : Nat) : CanvasConfig :=
  match e with
  | .ok t => t.canvases id
  | .error _ => zeroConfig

/-- Modelled from the spec (§4.2), for comparison with `setPixel`: check
`UnknownCanvas` first, then lazy completion and `CanvasFinished` (completion
winning ties at the boundary tick), then `CoordinatesOutOfBounds`
(`CoordinatesOOB` in the code), then record the color, update the last
write tick and emit `PixelColored` — in exactly that order. -/
def setPixelSpecOrder (s : ChainState) (blockNumber sender canvasId x y newColor : Nat) :
    Except CanvasError ChainState :=
  let canvas := s.canvases canvasId
  if canvas.owner = 0 then .error (.UnknownCanvas canvasId)
  else if canvas.isComplete = true ∨ canvas.startBlock + canvas.maxDurationBlocks ≤ blockNumber then
    .error (.CanvasFinished canvasId)
  else if canvas.x ≤ x ∨ canvas.y ≤ y then .error (.CoordinatesOOB x y)
  else .ok { s with
    color := upd3 s.color canvasId x y newColor,
    colorSet := upd3 s.colorSet canvasId x y true,
    canvases := upd s.canvases canvasId { canvas with mostRecentUpdatedBlock := blockNumber },
    events := s.events ++ [.PixelColored sender canvasId x y newColor] }

/-- State invariant maintained by every transaction: ids at or above the
counter are untouched slots, and a claimed canvas is complete. -/
structure LedgerInv (s : ChainState) : Prop where
  fresh : ∀ id, s.lastCanvasId ≤ id → s.canvases id = zeroConfig
  claimedComplete : ∀ id, (s.canvases id).isClaimed = true → (s.canvases id).isComplete = true

/-- A tiny concrete run for witnesses: a 10×10 canvas with a one-block
window, created by address 7 at block 0; it receives id 1. -/
def demoState : ChainState := execOps [Op.generate 0 7 10 10 1]

/-- The same canvas after its creator claims it at block 5 (window elapsed). -/
def demoOps : List Op := [Op.generate 0 7 10 10 1, Op.doClaim 5 7 1 "Qm123"]

/-- The result state of a call, deployment state on error. -/
def okStateD (e : Except CanvasError ChainState) : ChainState :=
  match e with
  | .ok t => t
  | .error _ => initState

/-! ### Basic lemmas about the operations -/

/-- On an existing canvas `updateCompletion` never reverts; it returns the
state with the completion flag refreshed (unchanged when the window has not
elapsed or the flag is already set). -/
theorem updateCompletion_of_owner_ne {s : ChainState} {b id : Nat}
    (h : (s.canvases id).owner ≠ 0) :
    updateCompletion s b id = .ok
      (if ¬(s.canvases id).isComplete = true ∧
          (s.canvases id).startBlock + (s.canvases id).maxDurationBlocks ≤ b
       then { s with canvases := upd s.canvases id ({ s.canvases id with isComplete := true }) }
       else s) := by
  unfold updateCompletion
  rw [if_neg h]
  split <;> rfl

/-- On an absent canvas `updateCompletion` reverts with `UnknownCanvas`. -/
theorem updateCompletion_of_owner_eq {s : ChainState} {b id : Nat}
    (h : (s.canvases id).owner = 0) :
    updateCompletion s b id = .error (.UnknownCanvas id) := by
  unfold updateCompletion
  rw [if_pos h]

/-- Successful pixel write: on an existing, not-yet-complete canvas whose
window has not elapsed, with in-bounds coordinates, `setPixel` returns
exactly the state with the pixel recorded, the set-bit raised, the field
`mostRecentUpdatedBlock` refreshed and the event appended. -/
theorem setPixel_success {s : ChainState} {b sender id x y c : Nat}
    (hex : (s.canvases id).owner ≠ 0)
    (hopen : (s.canvases id).isComplete = false)
    (hb : b < (s.canvases id).startBlock + (s.canvases id).maxDurationBlocks)
    (hx : x < (s.canvases id).x) (hy : y < (s.canvases id).y) :
    setPixel s b sender id x y c = .ok
      { s with
        color := upd3 s.color id x y c,
        colorSet := upd3 s.colorSet id x y true,
        canvases := upd s.canvases id ({ s.canvases id with mostRecentUpdatedBlock := b }),
        events := s.events ++ [.PixelColored sender id x y c] } := by
  unfold setPixel
  rw [updateCompletion_of_owner_ne hex,
      if_neg (by rintro ⟨-, h2⟩; omega)]
  dsimp only
  rw [if_neg (by simp [hopen]), if_neg (by omega)]

/-- Lemma: `getPixel` on an existing canvas, in bounds, with the set-bit raised,
returns the stored color. -/
theorem getPixel_set {s : ChainState} {id x y : Nat}
    (hex : (s.canvases id).owner ≠ 0)
    (hx : x < (s.canvases id).x) (hy : y < (s.canvases id).y)
    (hset : s.colorSet id x y = true) :
    getPixel s id x y = .ok (s.color id x y) := by
  unfold getPixel
  rw [if_neg hex, if_neg (by omega), if_pos hset]

/-- Lemma: `getPixel` on an existing canvas, in bounds, with the set-bit clear,
returns `DEFAULT_COLOR`. -/
theorem getPixel_unset {s : ChainState} {id x y : Nat}
    (hex : (s.canvases id).owner ≠ 0)
    (hx : x < (s.canvases id).x) (hy : y < (s.canvases id).y)
    (hset : s.colorSet id x y = false) :
    getPixel s id x y = .ok DEFAULT_COLOR := by
  unfold getPixel
  rw [if_neg hex, if_neg (by omega), if_neg (by simp [hset])]

/-- Collapsing two writes to the same key. -/
theorem upd_upd_same {α : Type} (f : Nat → α) (k : Nat) (a b : α) :
    upd (upd f k a) k b = upd f k b := by
  funext i
  unfold upd
  split <;> rfl

/-- Reading back the written key. -/
theorem upd_same {α : Type} (f : Nat → α) (k : Nat) (a : α) : upd f k a k = a := by
  simp [upd]

/-- Reading another key. -/
theorem upd_other {α : Type} (f : Nat → α) (k : Nat) (a : α) (j : Nat) (h : j ≠ k) :
    upd f k a j = f j := by
  simp [upd, h]

/-- Lemma: `claim` called by anyone other than the stored creator reverts with
`NotCanvasOwner`, whatever the completion and claim flags are. -/
theorem claim_nonowner_aux {s : ChainState} {b sender id : Nat} {cid : String}
    (hex : (s.canvases id).owner ≠ 0) (hne : (s.canvases id).owner ≠ sender) :
    claim s b sender id cid = .error (.NotCanvasOwner id (s.canvases id).owner) := by
  unfold claim
  rw [updateCompletion_of_owner_ne hex]
  by_cases hc : ¬(s.canvases id).isComplete = true ∧
      (s.canvases id).startBlock + (s.canvases id).maxDurationBlocks ≤ b
  · rw [if_pos hc]
    dsimp only
    unfold onlyCanvasOwner
    simp [upd_same, hex, hne]
  · rw [if_neg hc]
    dsimp only
    unfold onlyCanvasOwner
    simp [hex, hne]

/-- Lemma: `claim` on an already-claimed canvas: the creator gets
`CanvasAlreadyClaimed`, anyone else `NotCanvasOwner`.  (A claimed canvas is
complete in every reachable state; completeness is taken as a hypothesis
here.) -/
theorem claim_on_claimed {s : ChainState} {b sender id : Nat} {cid : String}
    (hex : (s.canvases id).owner ≠ 0)
    (hc : (s.canvases id).isComplete = true ∨
          (s.canvases id).startBlock + (s.canvases id).maxDurationBlocks ≤ b)
    (hcl : (s.canvases id).isClaimed = true) :
    claim s b sender id cid = .error
      (if (s.canvases id).owner = sender then .CanvasAlreadyClaimed id
       else .NotCanvasOwner id (s.canvases id).owner) := by
  unfold claim
  rw [updateCompletion_of_owner_ne hex]
  by_cases hcomp : (s.canvases id).isComplete = true
  · rw [if_neg (by simp [hcomp])]
    dsimp only
    unfold onlyCanvasOwner
    by_cases hsen : (s.canvases id).owner = sender
    · rw [if_neg hex, if_neg (by simp [hsen]), if_pos hsen]
      dsimp only
      rw [if_neg (by simp [hcomp]), if_pos hcl]
    · rw [if_neg hex, if_pos hsen, if_neg hsen]
  · have helap : (s.canvases id).startBlock + (s.canvases id).maxDurationBlocks ≤ b :=
      hc.resolve_left hcomp
    rw [if_pos ⟨by simp [hcomp], helap⟩]
    dsimp only
    unfold onlyCanvasOwner
    dsimp only
    simp only [upd_same]
    by_cases hsen : (s.canvases id).owner = sender
    · rw [if_neg hex, if_neg (by simp [hsen]), if_pos hsen]
      dsimp only
      rw [if_neg (by simp), if_pos hcl]
    · rw [if_neg hex, if_pos hsen, if_neg hsen]

/-- Successful claim: with the stored creator as caller, the canvas complete
(flag already set, or window elapsed so lazy completion fires), the claim
flag clear and no token minted yet, `claim` succeeds; the canvas keeps its
geometry, gains `isComplete`/`isClaimed` and the supplied reference, the
token is minted to the creator and `CanvasClaimed` is emitted. -/
theorem claim_success {s : ChainState} {b sender id : Nat} {cid : String}
    (hown : (s.canvases id).owner = sender) (h0 : sender ≠ 0)
    (hc : (s.canvases id).isComplete = true ∨
          (s.canvases id).startBlock + (s.canvases id).maxDurationBlocks ≤ b)
    (hncl : (s.canvases id).isClaimed = false)
    (hmint : s.tokenOwner id = 0) :
    claim s b sender id cid = .ok
      { s with
        canvases := upd s.canvases id
          ({ s.canvases id with isComplete := true, isClaimed := true, imageCid := cid }),
        tokenOwner := upd s.tokenOwner id sender,
        events := s.events ++ [.CanvasClaimed id sender] } := by
  have hex : (s.canvases id).owner ≠ 0 := by rw [hown]; exact h0
  unfold claim
  rw [updateCompletion_of_owner_ne hex]
  by_cases hcomp : (s.canvases id).isComplete = true
  · rw [if_neg (by simp [hcomp])]
    dsimp only
    unfold onlyCanvasOwner
    rw [if_neg hex, if_neg (by simp [hown])]
    dsimp only
    rw [if_neg (by simp [hcomp]), if_neg (by simp [hncl])]
    unfold mintNft
    rw [if_neg (by simp [hown, h0, hmint])]
    dsimp only
    rw [hown, hcomp]
  · have helap : (s.canvases id).startBlock + (s.canvases id).maxDurationBlocks ≤ b :=
      hc.resolve_left hcomp
    rw [if_pos ⟨by simp [hcomp], helap⟩]
    dsimp only
    unfold onlyCanvasOwner
    dsimp only
    simp only [upd_same]
    rw [if_neg hex, if_neg (by simp [hown])]
    dsimp only
    rw [if_neg (by simp), if_neg (by simp [hncl])]
    unfold mintNft
    dsimp only
    rw [if_neg (by simp [hown, h0, hmint])]
    dsimp only
    rw [hown, upd_upd_same]

/-- Lemma: `claim` on an absent canvas reverts with `UnknownCanvas`. -/
theorem claim_unknown {s : ChainState} {b sender id : Nat} {cid : String}
    (hex : (s.canvases id).owner = 0) :
    claim s b sender id cid = .error (.UnknownCanvas id) := by
  unfold claim
  rw [updateCompletion_of_owner_eq hex]

/-- Lemma: `claim` before the window has elapsed, by the creator, reverts with
`CanvasNotFinished`. -/
theorem claim_notfinished {s : ChainState} {b sender id : Nat} {cid : String}
    (hown : (s.canvases id).owner = sender) (h0 : sender ≠ 0)
    (hcomp : (s.canvases id).isComplete = false)
    (hb : b < (s.canvases id).startBlock + (s.canvases id).maxDurationBlocks) :
    claim s b sender id cid = .error (.CanvasNotFinished id) := by
  have hex : (s.canvases id).owner ≠ 0 := by rw [hown]; exact h0
  unfold claim
  rw [updateCompletion_of_owner_ne hex, if_neg (by rintro ⟨-, h2⟩; omega)]
  dsimp only
  unfold onlyCanvasOwner
  rw [if_neg hex, if_neg (by simp [hown])]
  dsimp only
  rw [if_pos (by simp [hcomp])]

/-- Lemma: `claim` whose `_safeMint` hits an already-minted token reverts. -/
theorem claim_mint_fail {s : ChainState} {b sender id : Nat} {cid : String}
    (hown : (s.canvases id).owner = sender) (h0 : sender ≠ 0)
    (hc : (s.canvases id).isComplete = true ∨
          (s.canvases id).startBlock + (s.canvases id).maxDurationBlocks ≤ b)
    (hncl : (s.canvases id).isClaimed = false)
    (hmint : s.tokenOwner id ≠ 0) :
    claim s b sender id cid = .error (.ERC721MintError id) := by
  have hex : (s.canvases id).owner ≠ 0 := by rw [hown]; exact h0
  unfold claim
  rw [updateCompletion_of_owner_ne hex]
  by_cases hcomp : (s.canvases id).isComplete = true
  · rw [if_neg (by simp [hcomp])]
    dsimp only
    unfold onlyCanvasOwner
    rw [if_neg hex, if_neg (by simp [hown])]
    dsimp only
    rw [if_neg (by simp [hcomp]), if_neg (by simp [hncl])]
    unfold mintNft
    rw [if_pos (by right; simpa using hmint)]
  · have helap : (s.canvases id).startBlock + (s.canvases id).maxDurationBlocks ≤ b :=
      hc.resolve_left hcomp
    rw [if_pos ⟨by simp [hcomp], helap⟩]
    dsimp only
    unfold onlyCanvasOwner
    dsimp only
    simp only [upd_same]
    rw [if_neg hex, if_neg (by simp [hown])]
    dsimp only
    rw [if_neg (by simp), if_neg (by simp [hncl])]
    unfold mintNft
    dsimp only
    rw [if_pos (by right; simpa using hmint)]

/-- Complete characterization of a successful claim: what must have held
before the call, and the exact state it returns. -/
theorem claim_ok_shape {s t : ChainState} {b sender id : Nat} {cid : String}
    (h : claim s b sender id cid = .ok t) :
    (s.canvases id).owner = sender ∧ sender ≠ 0 ∧
    (s.canvases id).isClaimed = false ∧ s.tokenOwner id = 0 ∧
    ((s.canvases id).isComplete = true ∨
      (s.canvases id).startBlock + (s.canvases id).maxDurationBlocks ≤ b) ∧
    t = { s with
      canvases := upd s.canvases id
        ({ s.canvases id with isComplete := true, isClaimed := true, imageCid := cid }),
      tokenOwner := upd s.tokenOwner id sender,
      events := s.events ++ [.CanvasClaimed id sender] } := by
  by_cases hex : (s.canvases id).owner = 0
  · rw [claim_unknown hex] at h
    cases h
  · by_cases hown : (s.canvases id).owner = sender
    · have h0 : sender ≠ 0 := hown ▸ hex
      by_cases hc : (s.canvases id).isComplete = true ∨
          (s.canvases id).startBlock + (s.canvases id).maxDurationBlocks ≤ b
      · by_cases hcl : (s.canvases id).isClaimed = true
        · rw [claim_on_claimed hex hc hcl] at h
          cases h
        · have hncl : (s.canvases id).isClaimed = false := by
            simpa using hcl
          by_cases hmint : s.tokenOwner id = 0
          · rw [claim_success hown h0 hc hncl hmint] at h
            injection h with h
            exact ⟨hown, h0, hncl, hmint, hc, h.symm⟩
          · rw [claim_mint_fail hown h0 hc hncl hmint] at h
            cases h
      · push_neg at hc
        rw [claim_notfinished hown h0 (by simpa using hc.1) hc.2] at h
        cases h
    · rw [claim_nonowner_aux hex hown] at h
      cases h

/-- Lemma: `setPixel` on an absent canvas reverts with `UnknownCanvas`. -/
theorem setPixel_unknown {s : ChainState} {b sender id x y c : Nat}
    (hex : (s.canvases id).owner = 0) :
    setPixel s b sender id x y c = .error (.UnknownCanvas id) := by
  unfold setPixel
  rw [updateCompletion_of_owner_eq hex]

/-- Lemma: `setPixel` on a canvas that is already complete, or whose window has
elapsed (boundary tick included), reverts with `CanvasFinished`. -/
theorem setPixel_finished {s : ChainState} {b sender id x y c : Nat}
    (hex : (s.canvases id).owner ≠ 0)
    (hc : (s.canvases id).isComplete = true ∨
          (s.canvases id).startBlock + (s.canvases id).maxDurationBlocks ≤ b) :
    setPixel s b sender id x y c = .error (.CanvasFinished id) := by
  unfold setPixel
  rw [updateCompletion_of_owner_ne hex]
  by_cases hcomp : (s.canvases id).isComplete = true
  · rw [if_neg (by simp [hcomp])]
    dsimp only
    rw [if_pos (by simp [hcomp])]
  · have helap : (s.canvases id).startBlock + (s.canvases id).maxDurationBlocks ≤ b :=
      hc.resolve_left hcomp
    rw [if_pos ⟨by simp [hcomp], helap⟩]
    dsimp only
    rw [if_pos (by simp [upd_same])]

/-- Lemma: `setPixel` out of bounds on an open canvas reverts with
`CoordinatesOOB`. -/
theorem setPixel_oob {s : ChainState} {b sender id x y c : Nat}
    (hex : (s.canvases id).owner ≠ 0)
    (hcomp : (s.canvases id).isComplete = false)
    (hb : b < (s.canvases id).startBlock + (s.canvases id).maxDurationBlocks)
    (hoob : (s.canvases id).x ≤ x ∨ (s.canvases id).y ≤ y) :
    setPixel s b sender id x y c = .error (.CoordinatesOOB x y) := by
  unfold setPixel
  rw [updateCompletion_of_owner_ne hex, if_neg (by rintro ⟨-, h2⟩; omega)]
  dsimp only
  rw [if_neg (by simp [hcomp]), if_pos hoob]

/-- Complete characterization of a successful pixel write. -/
theorem setPixel_ok_shape {s t : ChainState} {b sender id x y c : Nat}
    (h : setPixel s b sender id x y c = .ok t) :
    (s.canvases id).owner ≠ 0 ∧ (s.canvases id).isComplete = false ∧
    b < (s.canvases id).startBlock + (s.canvases id).maxDurationBlocks ∧
    x < (s.canvases id).x ∧ y < (s.canvases id).y ∧
    t = { s with
      color := upd3 s.color id x y c,
      colorSet := upd3 s.colorSet id x y true,
      canvases := upd s.canvases id ({ s.canvases id with mostRecentUpdatedBlock := b }),
      events := s.events ++ [.PixelColored sender id x y c] } := by
  by_cases hex : (s.canvases id).owner = 0
  · rw [setPixel_unknown hex] at h
    cases h
  · by_cases hc : (s.canvases id).isComplete = true ∨
        (s.canvases id).startBlock + (s.canvases id).maxDurationBlocks ≤ b
    · rw [setPixel_finished hex hc] at h
      cases h
    · push_neg at hc
      have hcomp : (s.canvases id).isComplete = false := by simpa using hc.1
      by_cases hoob : (s.canvases id).x ≤ x ∨ (s.canvases id).y ≤ y
      · rw [setPixel_oob hex hcomp hc.2 hoob] at h
        cases h
      · push_neg at hoob
        rw [setPixel_success hex hcomp hc.2 hoob.1 hoob.2] at h
        injection h with h
        exact ⟨hex, hcomp, hc.2, hoob.1, hoob.2, h.symm⟩

/-- Complete characterization of a successful canvas creation. -/
theorem generateCanvas_ok_shape {s t : ChainState} {b sender x y d i : Nat}
    (h : generateCanvas s b sender x y d = .ok (t, i)) :
    x ≠ 0 ∧ y ≠ 0 ∧ d ≠ 0 ∧ i = s.lastCanvasId ∧
    t = { s with
      canvases := upd s.canvases s.lastCanvasId
        ({ x := x, y := y, startBlock := b, maxDurationBlocks := d,
           isComplete := false, isClaimed := false,
           mostRecentUpdatedBlock := b, owner := sender, imageCid := "" }),
      lastCanvasId := s.lastCanvasId + 1,
      events := s.events ++
        [.CanvasGenerated s.lastCanvasId sender x y b d] } := by
  unfold generateCanvas at h
  by_cases hxy : x = 0 ∨ y = 0
  · rw [if_pos hxy] at h
    cases h
  · rw [if_neg hxy] at h
    by_cases hd : d = 0
    · rw [if_pos hd] at h
      cases h
    · rw [if_neg hd] at h
      push_neg at hxy
      injection h with h
      injection h with h1 h2
      exact ⟨hxy.1, hxy.2, hd, h2.symm, h1.symm⟩

/-- The deployment state satisfies the ledger invariant. -/
theorem ledgerInv_init : LedgerInv initState := by
  constructor
  · intro id _
    rfl
  · intro id h
    simp [initState, zeroConfig] at h

/-- One transaction preserves the ledger invariant, never lowers a canvas field
`isComplete` or `isClaimed` flag, never changes the owner of an existing
canvas, and never unminted or reassigns an existing token. -/
theorem step_preserve (s : ChainState) (op : Op) (hInv : LedgerInv s) :
    LedgerInv (step s op) ∧
    ∀ id,
      ((s.canvases id).isComplete = true → ((step s op).canvases id).isComplete = true) ∧
      ((s.canvases id).isClaimed = true → ((step s op).canvases id).isClaimed = true) ∧
      ((s.canvases id).owner ≠ 0 → ((step s op).canvases id).owner = (s.canvases id).owner) ∧
      (s.tokenOwner id ≠ 0 → (step s op).tokenOwner id = s.tokenOwner id) := by
  cases op with
  | generate b sender x y d =>
    dsimp only [step]
    cases hg : generateCanvas s b sender x y d with
    | error e =>
      exact ⟨hInv, fun id => ⟨fun h => h, fun h => h, fun _ => rfl, fun _ => rfl⟩⟩
    | ok p =>
      obtain ⟨t, i⟩ := p
      obtain ⟨hx, hy, hd, hi, ht⟩ := generateCanvas_ok_shape hg
      subst ht
      constructor
      · constructor
        · intro j hj
          dsimp only at hj ⊢
          rw [upd_other _ _ _ _ (by omega)]
          exact hInv.fresh j (by omega)
        · intro j hj
          dsimp only at hj ⊢
          by_cases hjid : j = s.lastCanvasId
          · subst hjid
            rw [upd_same] at hj
            simp at hj
          · rw [upd_other _ _ _ _ hjid] at hj ⊢
            exact hInv.claimedComplete j hj
      · intro id
        by_cases hid : id = s.lastCanvasId
        · subst hid
          have hz := hInv.fresh s.lastCanvasId le_rfl
          rw [hz]
          refine ⟨fun h => by simp [zeroConfig] at h,
                  fun h => by simp [zeroConfig] at h,
                  fun h => by simp [zeroConfig] at h,
                  fun h => rfl⟩
        · dsimp only
          rw [upd_other _ _ _ _ hid]
          exact ⟨fun h => h, fun h => h, fun _ => rfl, fun _ => rfl⟩
  | setPix b sender cid x y c =>
    dsimp only [step]
    cases hg : setPixel s b sender cid x y c with
    | error e =>
      exact ⟨hInv, fun id => ⟨fun h => h, fun h => h, fun _ => rfl, fun _ => rfl⟩⟩
    | ok t =>
      obtain ⟨hex, hcomp, hb, hx, hy, ht⟩ := setPixel_ok_shape hg
      subst ht
      have hlt : cid < s.lastCanvasId := by
        by_contra hge
        have := hInv.fresh cid (by omega)
        rw [this] at hex
        exact hex rfl
      constructor
      · constructor
        · intro j hj
          dsimp only at hj ⊢
          rw [upd_other _ _ _ _ (by omega)]
          exact hInv.fresh j (by omega)
        · intro j hj
          dsimp only at hj ⊢
          by_cases hjid : j = cid
          · subst hjid
            rw [upd_same] at hj ⊢
            exact hInv.claimedComplete j hj
          · rw [upd_other _ _ _ _ hjid] at hj ⊢
            exact hInv.claimedComplete j hj
      · intro id
        by_cases hid : id = cid
        · subst hid
          dsimp only
          rw [upd_same]
          exact ⟨fun h => h, fun h => h, fun _ => rfl, fun _ => rfl⟩
        · dsimp only
          rw [upd_other _ _ _ _ hid]
          exact ⟨fun h => h, fun h => h, fun _ => rfl, fun _ => rfl⟩
  | doClaim b sender cid icid =>
    dsimp only [step]
    cases hg : claim s b sender cid icid with
    | error e =>
      exact ⟨hInv, fun id => ⟨fun h => h, fun h => h, fun _ => rfl, fun _ => rfl⟩⟩
    | ok t =>
      obtain ⟨hown, h0, hncl, hmint, hc, ht⟩ := claim_ok_shape hg
      subst ht
      have hex : (s.canvases cid).owner ≠ 0 := by rw [hown]; exact h0
      have hlt : cid < s.lastCanvasId := by
        by_contra hge
        have := hInv.fresh cid (by omega)
        rw [this] at hex
        exact hex rfl
      constructor
      · constructor
        · intro j hj
          dsimp only at hj ⊢
          rw [upd_other _ _ _ _ (by omega)]
          exact hInv.fresh j (by omega)
        · intro j hj
          dsimp only at hj ⊢
          by_cases hjid : j = cid
          · subst hjid
            rw [upd_same]
          · rw [upd_other _ _ _ _ hjid] at hj ⊢
            exact hInv.claimedComplete j hj
      · intro id
        by_cases hid : id = cid
        · subst hid
          dsimp only
          rw [upd_same]
          refine ⟨fun h => rfl, fun h => rfl, fun _ => rfl, fun h => ?_⟩
          exact absurd hmint h
        · dsimp only
          rw [upd_other _ _ _ _ hid, upd_other _ _ _ _ hid]
          exact ⟨fun h => h, fun h => h, fun _ => rfl, fun _ => rfl⟩
  | viewCanvas cid =>
    exact ⟨hInv, fun id => ⟨fun h => h, fun h => h, fun _ => rfl, fun _ => rfl⟩⟩
  | viewPixel cid x y =>
    exact ⟨hInv, fun id => ⟨fun h => h, fun h => h, fun _ => rfl, fun _ => rfl⟩⟩

/-- Multi-transaction version of `step_preserve`. -/
theorem execFrom_preserve (ops : List Op) (s : ChainState) (hInv : LedgerInv s) :
    LedgerInv (execFrom s ops) ∧
    ∀ id,
      ((s.canvases id).isComplete = true → ((execFrom s ops).canvases id).isComplete = true) ∧
      ((s.canvases id).isClaimed = true → ((execFrom s ops).canvases id).isClaimed = true) ∧
      ((s.canvases id).owner ≠ 0 → ((execFrom s ops).canvases id).owner = (s.canvases id).owner) ∧
      (s.tokenOwner id ≠ 0 → (execFrom s ops).tokenOwner id = s.tokenOwner id) := by
  induction ops generalizing s with
  | nil =>
    exact ⟨hInv, fun id => ⟨fun h => h, fun h => h, fun _ => rfl, fun _ => rfl⟩⟩
  | cons op ops ih =>
    have h1 := step_preserve s op hInv
    have h2 := ih (step s op) h1.1
    refine ⟨h2.1, fun id => ?_⟩
    obtain ⟨a1, a2, a3, a4⟩ := h1.2 id
    obtain ⟨b1, b2, b3, b4⟩ := h2.2 id
    refine ⟨fun h => b1 (a1 h), fun h => b2 (a2 h), fun h => ?_, fun h => ?_⟩
    · rw [show (execFrom s (op :: ops)) = execFrom (step s op) ops from rfl,
          b3 (by rw [a3 h]; exact h), a3 h]
    · rw [show (execFrom s (op :: ops)) = execFrom (step s op) ops from rfl,
          b4 (by rw [a4 h]; exact h), a4 h]

/-- Every reachable state satisfies the ledger invariant. -/
theorem ledgerInv_reachable (ops : List Op) : LedgerInv (execOps ops) :=
  (execFrom_preserve ops initState ledgerInv_init).1

/-- Reading back the written key of a three-key map. -/
theorem upd3_same {α : Type} (f : Nat → Nat → Nat → α) (k1 k2 k3 : Nat) (v : α) :
    upd3 f k1 k2 k3 v k1 k2 k3 = v := by
  simp [upd3]

/-- A status differs from `Open` exactly when one of the two flags is set. -/
theorem status_ne_open_iff (c : CanvasConfig) :
    c.status ≠ Status.Open ↔ (c.isClaimed = true ∨ c.isComplete = true) := by
  unfold CanvasConfig.status
  by_cases h1 : c.isClaimed = true <;> by_cases h2 : c.isComplete = true <;>
    simp [h1, h2]

/-- Lemma: `getCanvas` on an existing canvas returns the stored struct unchanged. -/
theorem getCanvas_eq {s : ChainState} {id : Nat} (h : (s.canvases id).owner ≠ 0) :
    getCanvas s id = .ok (s.canvases id) := by
  unfold getCanvas
  rw [if_neg h]

/-- What a successful `getCanvas` implies. -/
theorem getCanvas_ok_shape {s : ChainState} {id : Nat} {c : CanvasConfig}
    (h : getCanvas s id = .ok c) :
    (s.canvases id).owner ≠ 0 ∧ c = s.canvases id := by
  unfold getCanvas at h
  by_cases hex : (s.canvases id).owner = 0
  · rw [if_pos hex] at h
    cases h
  · rw [if_neg hex] at h
    injection h with h
    exact ⟨hex, h.symm⟩

/-! ### The claims -/

/-- C4: completion wins ties.  For every existing canvas that is not yet
complete, a `setPixel` call made at exactly the boundary tick
`block.number = startBlock + maxDurationBlocks` is rejected with
`CanvasFinished` (the `updateCompletion` side effect runs before the own
guard of the write), never accepted. -/
theorem boundary_write_rejected (s : ChainState) (sender id x y c : Nat)
    (hex : (s.canvases id).owner ≠ 0)
    (hopen : (s.canvases id).isComplete = false) :
    setPixel s ((s.canvases id).startBlock + (s.canvases id).maxDurationBlocks)
      sender id x y c = .error (.CanvasFinished id) :=
  setPixel_finished hex (Or.inr le_rfl)

/-- Witness for C4 at a concrete input: the demo canvas (start 0, window 1,
still open) rejects a write at block 1. -/
theorem boundary_write_rejected_witness :
    setPixel demoState 1 9 1 3 3 42 = .error (.CanvasFinished 1) :=
  boundary_write_rejected demoState 9 1 3 3 42 (by decide) (by decide)

/-- C8: for every existing canvas and every caller different from its
creator, `claim` fails with `NotCanvasOwner` regardless of completion or
claim status (no hypothesis on either flag). -/
theorem claim_by_nonowner_fails (s : ChainState) (b sender id : Nat) (cid : String)
    (hex : (s.canvases id).owner ≠ 0)
    (hne : sender ≠ (s.canvases id).owner) :
    claim s b sender id cid = .error (.NotCanvasOwner id (s.canvases id).owner) :=
  claim_nonowner_aux hex (fun h => hne h.symm)

/-- Witness for C8 at a concrete input: address 8 cannot claim the demo
canvas owned by address 7. -/
theorem claim_by_nonowner_fails_witness :
    claim demoState 5 8 1 "zz" = .error (.NotCanvasOwner 1 7) :=
  claim_by_nonowner_fails demoState 5 8 1 "zz" (by decide) (by decide)

/-- C6: `setPixel` is extensionally equal to the specification-ordered
reference `setPixelSpecOrder`: check `UnknownCanvas` first, then lazy
completion and `CanvasFinished`, then bounds (`CoordinatesOOB`), and only
then record the color (overwriting), refresh the last-write block and emit
`PixelColored`. -/
theorem setPixel_matches_spec_order (s : ChainState) (b sender id x y c : Nat) :
    setPixel s b sender id x y c = setPixelSpecOrder s b sender id x y c := by
  by_cases hex : (s.canvases id).owner = 0
  · rw [setPixel_unknown hex]
    unfold setPixelSpecOrder
    rw [if_pos hex]
  · by_cases hc : (s.canvases id).isComplete = true ∨
        (s.canvases id).startBlock + (s.canvases id).maxDurationBlocks ≤ b
    · rw [setPixel_finished hex hc]
      unfold setPixelSpecOrder
      rw [if_neg hex, if_pos hc]
    · push_neg at hc
      have hcomp : (s.canvases id).isComplete = false := by simpa using hc.1
      by_cases hoob : (s.canvases id).x ≤ x ∨ (s.canvases id).y ≤ y
      · rw [setPixel_oob hex hcomp hc.2 hoob]
        unfold setPixelSpecOrder
        rw [if_neg hex, if_neg (by rintro (h1 | h2); exact hc.1 h1; omega), if_pos hoob]
      · push_neg at hoob
        rw [setPixel_success hex hcomp hc.2 hoob.1 hoob.2]
        unfold setPixelSpecOrder
        rw [if_neg hex, if_neg (by rintro (h1 | h2); exact hc.1 h1; omega),
            if_neg (by omega)]

/-- C7: `generateCanvas` rejects `width = 0 ∨ height = 0` with
`CoordinatesCantBeZero` (named `InvalidDimensions` in the spec) and
`maxDurationBlocks = 0` with `DurationCantBeZero` (named `InvalidDuration` in the
spec); a rejected creation writes no state (the transaction
reverts, so the chain state is unchanged), and the next successful creation
receives the id the failed attempt would have received. -/
theorem createCanvas_rejects_cleanly (s : ChainState) (b sender x y d : Nat)
    (hbad : x = 0 ∨ y = 0 ∨ d = 0) :
    (x = 0 ∨ y = 0 → generateCanvas s b sender x y d = .error (.CoordinatesCantBeZero x y)) ∧
    (x ≠ 0 → y ≠ 0 → generateCanvas s b sender x y d = .error (.DurationCantBeZero d)) ∧
    step s (Op.generate b sender x y d) = s ∧
    (∀ b2 s2 x2 y2 d2, x2 ≠ 0 → y2 ≠ 0 → d2 ≠ 0 →
      ∃ t, generateCanvas (step s (Op.generate b sender x y d)) b2 s2 x2 y2 d2 =
        .ok (t, s.lastCanvasId)) := by
  have herr : ∃ e, generateCanvas s b sender x y d = .error e := by
    unfold generateCanvas
    by_cases hxy : x = 0 ∨ y = 0
    · exact ⟨_, by rw [if_pos hxy]⟩
    · have hd : d = 0 := by tauto
      exact ⟨_, by rw [if_neg hxy, if_pos hd]⟩
  obtain ⟨e, he⟩ := herr
  have hstep : step s (Op.generate b sender x y d) = s := by
    dsimp only [step]
    rw [he]
  refine ⟨?_, ?_, hstep, ?_⟩
  · intro hxy
    unfold generateCanvas
    rw [if_pos hxy]
  · intro hx hy
    have hd : d = 0 := by tauto
    unfold generateCanvas
    rw [if_neg (by tauto), if_pos hd]
  · intro b2 s2 x2 y2 d2 hx2 hy2 hd2
    rw [hstep]
    unfold generateCanvas
    rw [if_neg (by tauto), if_neg hd2]
    exact ⟨_, rfl⟩

/-- Witness for C7 at a concrete input: creating a 0×5 canvas on the demo
state fails with `CoordinatesCantBeZero`, leaves the state unchanged, and a
following valid creation still gets id 2. -/
theorem createCanvas_rejects_cleanly_witness :
    generateCanvas demoState 3 8 0 5 5 = .error (.CoordinatesCantBeZero 0 5) ∧
    step demoState (Op.generate 3 8 0 5 5) = demoState ∧
    ∃ t, generateCanvas (step demoState (Op.generate 3 8 0 5 5)) 4 8 6 6 9 =
      .ok (t, 2) := by
  have h := createCanvas_rejects_cleanly demoState 3 8 0 5 5 (Or.inl rfl)
  exact ⟨h.1 (Or.inl rfl), h.2.2.1, h.2.2.2 4 8 6 6 9 (by decide) (by decide) (by decide)⟩

/-- C9: write-then-read consistency with last-write-wins.  On an existing,
still-open canvas (flag clear, window not elapsed at either write) and an
in-bounds coordinate, `setPixel` followed by `getPixel` at that coordinate
returns the written color, and a second accepted `setPixel` with another
color overwrites the first, so `getPixel` then returns the newer color. -/
theorem setPixel_write_then_read (s : ChainState)
    (b b2 sender sender2 id x y c c2 : Nat)
    (hex : (s.canvases id).owner ≠ 0)
    (hopen : (s.canvases id).isComplete = false)
    (hb : b < (s.canvases id).startBlock + (s.canvases id).maxDurationBlocks)
    (hb2 : b2 < (s.canvases id).startBlock + (s.canvases id).maxDurationBlocks)
    (hx : x < (s.canvases id).x) (hy : y < (s.canvases id).y) :
    resIsOk (setPixel s b sender id x y c) = true ∧
    getPixel (okStateD (setPixel s b sender id x y c)) id x y = .ok c ∧
    resIsOk (setPixel (okStateD (setPixel s b sender id x y c))
      b2 sender2 id x y c2) = true ∧
    getPixel (okStateD (setPixel (okStateD (setPixel s b sender id x y c))
      b2 sender2 id x y c2)) id x y = .ok c2 := by
  rw [setPixel_success hex hopen hb hx hy]
  dsimp only [okStateD]
  rw [setPixel_success (by simpa [upd_same] using hex) (by simp [upd_same, hopen])
      (by simpa [upd_same] using hb2) (by simpa [upd_same] using hx)
      (by simpa [upd_same] using hy)]
  dsimp only [okStateD]
  refine ⟨rfl, ?_, rfl, ?_⟩
  · rw [getPixel_set (by simpa [upd_same] using hex) (by simpa [upd_same] using hx)
        (by simpa [upd_same] using hy) (by simp [upd3_same])]
    simp [upd3_same]
  · rw [getPixel_set (by simp [upd_same]; simpa [upd_same] using hex)
        (by simp [upd_same]; simpa [upd_same] using hx)
        (by simp [upd_same]; simpa [upd_same] using hy) (by simp [upd3_same])]
    simp [upd3_same]

/-- Witness for C9 at a concrete input: write 42 at (3,3) of the open demo
canvas, read it back, overwrite with 17, read 17. -/
theorem setPixel_write_then_read_witness :
    resIsOk (setPixel demoState 0 9 1 3 3 42) = true ∧
    getPixel (okStateD (setPixel demoState 0 9 1 3 3 42)) 1 3 3 = .ok 42 ∧
    resIsOk (setPixel (okStateD (setPixel demoState 0 9 1 3 3 42)) 0 11 1 3 3 17) = true ∧
    getPixel (okStateD (setPixel (okStateD (setPixel demoState 0 9 1 3 3 42))
      0 11 1 3 3 17)) 1 3 3 = .ok 17 :=
  setPixel_write_then_read demoState 0 0 9 11 1 3 3 42 17
    (by decide) (by decide) (by decide) (by decide) (by decide) (by decide)

/-- C10: at the `getPixel` interface, explicitly writing `DEFAULT_COLOR`
(255) is indistinguishable from never writing: before the write an unset
in-bounds pixel reads 255, the write of 255 on an open canvas is accepted,
and the pixel still reads 255 afterwards — the internal set-bit is not
observable through `getPixel`. -/
theorem default_color_write_indistinguishable (s : ChainState)
    (b sender id x y : Nat)
    (hex : (s.canvases id).owner ≠ 0)
    (hopen : (s.canvases id).isComplete = false)
    (hb : b < (s.canvases id).startBlock + (s.canvases id).maxDurationBlocks)
    (hx : x < (s.canvases id).x) (hy : y < (s.canvases id).y)
    (hunset : s.colorSet id x y = false) :
    getPixel s id x y = .ok DEFAULT_COLOR ∧
    resIsOk (setPixel s b sender id x y DEFAULT_COLOR) = true ∧
    getPixel (okStateD (setPixel s b sender id x y DEFAULT_COLOR)) id x y =
      .ok DEFAULT_COLOR := by
  refine ⟨getPixel_unset hex hx hy hunset, ?_, ?_⟩
  · rw [setPixel_success hex hopen hb hx hy]
    rfl
  · rw [setPixel_success hex hopen hb hx hy]
    dsimp only [okStateD]
    rw [getPixel_set (by simpa [upd_same] using hex) (by simpa [upd_same] using hx)
        (by simpa [upd_same] using hy) (by simp [upd3_same])]
    simp [upd3_same]

/-- Witness for C10 at a concrete input: pixel (2,2) of the demo canvas. -/
theorem default_color_write_indistinguishable_witness :
    getPixel demoState 1 2 2 = .ok DEFAULT_COLOR ∧
    resIsOk (setPixel demoState 0 9 1 2 2 DEFAULT_COLOR) = true ∧
    getPixel (okStateD (setPixel demoState 0 9 1 2 2 DEFAULT_COLOR)) 1 2 2 =
      .ok DEFAULT_COLOR :=
  default_color_write_indistinguishable demoState 0 9 1 2 2
    (by decide) (by decide) (by decide) (by decide) (by decide) (by decide)

/-- C5: the lifecycle is strictly forward-only on reachable states: no
transaction (create, write, claim, or view) ever resets `isComplete` or
`isClaimed` from `true` to `false`, and every reachable state with
`isClaimed = true` also has `isComplete = true`. -/
theorem lifecycle_forward_only (ops : List Op) (op : Op) (id : Nat) :
    (((execOps ops).canvases id).isComplete = true →
      ((step (execOps ops) op).canvases id).isComplete = true) ∧
    (((execOps ops).canvases id).isClaimed = true →
      ((step (execOps ops) op).canvases id).isClaimed = true) ∧
    (((execOps ops).canvases id).isClaimed = true →
      ((execOps ops).canvases id).isComplete = true) := by
  obtain ⟨-, hmono⟩ := step_preserve (execOps ops) op (ledgerInv_reachable ops)
  obtain ⟨m1, m2, -, -⟩ := hmono id
  exact ⟨m1, m2, (ledgerInv_reachable ops).claimedComplete id⟩

/-- Witness for C5 at a concrete input: after the demo canvas is claimed, a
further (failing) write leaves it claimed, and the claimed state is
complete. -/
theorem lifecycle_forward_only_witness :
    ((step (execOps demoOps) (Op.setPix 6 9 1 0 0 3)).canvases 1).isClaimed = true ∧
    ((execOps demoOps).canvases 1).isComplete = true :=
  ⟨(lifecycle_forward_only demoOps (Op.setPix 6 9 1 0 0 3) 1).2.1 (by decide),
   (lifecycle_forward_only demoOps (Op.setPix 6 9 1 0 0 3) 1).2.2 (by decide)⟩

/-- C3: claim succeeds at most once per canvas.  After a successful claim
from a reachable state, every later claim on that canvas — after any
further transactions — fails, with `CanvasAlreadyClaimed` when the caller
is the creator and `NotCanvasOwner` otherwise; the failed call leaves the
chain state unchanged, and the single minted token still belongs to the
creator, so at most one ownership record ever exists per canvas. -/
theorem claim_at_most_once (ops : List Op) (b sender id : Nat) (cid : String)
    (t : ChainState) (h : claim (execOps ops) b sender id cid = .ok t)
    (ops2 : List Op) (b2 sender2 : Nat) (cid2 : String) :
    claim (execFrom t ops2) b2 sender2 id cid2 =
      .error
        (if ((execFrom t ops2).canvases id).owner = sender2
         then .CanvasAlreadyClaimed id
         else .NotCanvasOwner id ((execFrom t ops2).canvases id).owner) ∧
    step (execFrom t ops2) (Op.doClaim b2 sender2 id cid2) = execFrom t ops2 ∧
    (execFrom t ops2).tokenOwner id = sender := by
  obtain ⟨hown, h0, hncl, hmint, hc, ht⟩ := claim_ok_shape h
  have hInv_s := ledgerInv_reachable ops
  have hstep : step (execOps ops) (Op.doClaim b sender id cid) = t := by
    dsimp only [step]
    rw [h]
  have hInv_t : LedgerInv t := by
    rw [← hstep]
    exact (step_preserve _ _ hInv_s).1
  have htcl : (t.canvases id).isClaimed = true := by rw [ht]; simp [upd_same]
  have htco : (t.canvases id).isComplete = true := by rw [ht]; simp [upd_same]
  have htow : (t.canvases id).owner = sender := by rw [ht]; simp [upd_same, hown]
  have htok : t.tokenOwner id = sender := by rw [ht]; simp [upd_same]
  obtain ⟨-, hmono⟩ := execFrom_preserve ops2 t hInv_t
  obtain ⟨m1, m2, m3, m4⟩ := hmono id
  have huco : ((execFrom t ops2).canvases id).isComplete = true := m1 htco
  have hucl : ((execFrom t ops2).canvases id).isClaimed = true := m2 htcl
  have huow : ((execFrom t ops2).canvases id).owner = sender := by
    rw [m3 (by rw [htow]; exact h0), htow]
  have hutok : (execFrom t ops2).tokenOwner id = sender := by
    rw [m4 (by rw [htok]; exact h0), htok]
  have hex : ((execFrom t ops2).canvases id).owner ≠ 0 := by rw [huow]; exact h0
  have herr : claim (execFrom t ops2) b2 sender2 id cid2 =
      .error
        (if ((execFrom t ops2).canvases id).owner = sender2
         then .CanvasAlreadyClaimed id
         else .NotCanvasOwner id ((execFrom t ops2).canvases id).owner) :=
    claim_on_claimed hex (Or.inl huco) hucl
  refine ⟨herr, ?_, hutok⟩
  dsimp only [step]
  rw [herr]

/-- Witness for C3 at a concrete input: after the creator claims the demo
canvas, an immediate second claim by the creator fails with
`CanvasAlreadyClaimed`, changes nothing, and the token is still address
7. -/
theorem claim_at_most_once_witness :
    claim (execFrom (okStateD (claim demoState 5 7 1 "Qm123")) []) 6 7 1 "zz" =
      .error (.CanvasAlreadyClaimed 1) ∧
    step (execFrom (okStateD (claim demoState 5 7 1 "Qm123")) [])
      (Op.doClaim 6 7 1 "zz") =
      execFrom (okStateD (claim demoState 5 7 1 "Qm123")) [] ∧
    (execFrom (okStateD (claim demoState 5 7 1 "Qm123")) []).tokenOwner 1 = 7 :=
  claim_at_most_once [Op.generate 0 7 10 10 1] 5 7 1 "Qm123"
    (okStateD (claim demoState 5 7 1 "Qm123")) rfl [] 6 7 "zz"

/-- C1 counterexample: the claim "getCanvas applies the lazy-completion
check before returning, so once the window has elapsed every getCanvas
observation reports Complete or Claimed, never Open" is false on the code:
`getCanvas` is a view that returns the stored flags unchanged.  On the
reachable demo state (10×10 canvas, window of one block starting at block
0) the window has long elapsed at tick 5, yet `getCanvas` still reports the
canvas `Open`. -/
theorem getCanvas_lazy_completion_counterexample :
    ¬ (∀ (ops : List Op) (id tick : Nat) (c : CanvasConfig),
        getCanvas (execOps ops) id = Except.ok c →
        c.startBlock + c.maxDurationBlocks ≤ tick →
        c.status ≠ Status.Open) := by
  intro hclaim
  exact hclaim [Op.generate 0 7 10 10 1] 1 5 (demoState.canvases 1)
    (getCanvas_eq (by decide)) (by decide) (by decide)

/-- C1 amended: `getCanvas` does not apply the lazy-completion check — it
returns the stored configuration unchanged, so a canvas whose window has
elapsed may still be observed `Open` until a mutating operation touches it;
but the observed status is monotone: once a `getCanvas` observation of a
reachable state reports `Complete` or `Claimed`, the observation after any
further transactions still reports `Complete` or `Claimed`, never `Open`
again. -/
theorem getCanvas_stored_status_monotone (ops : List Op) (id : Nat)
    (c : CanvasConfig) (h : getCanvas (execOps ops) id = Except.ok c) :
    c = (execOps ops).canvases id ∧
    (c.status ≠ Status.Open →
      ∀ ops2 : List Op, ∃ c2 : CanvasConfig,
        getCanvas (execFrom (execOps ops) ops2) id = Except.ok c2 ∧
        c2.status ≠ Status.Open) := by
  obtain ⟨hex, hceq⟩ := getCanvas_ok_shape h
  refine ⟨hceq, fun hopen ops2 => ?_⟩
  obtain ⟨-, hmono⟩ := execFrom_preserve ops2 (execOps ops) (ledgerInv_reachable ops)
  obtain ⟨m1, m2, m3, -⟩ := hmono id
  have hex2 : ((execFrom (execOps ops) ops2).canvases id).owner ≠ 0 := by
    rw [m3 hex]
    exact hex
  refine ⟨_, getCanvas_eq hex2, ?_⟩
  rw [status_ne_open_iff] at hopen ⊢
  subst hceq
  rcases hopen with h1 | h2
  · exact Or.inl (m2 h1)
  · exact Or.inr (m1 h2)

/-- Witness for the amended C1 at a concrete input: the demo canvas observed
`Claimed` stays non-`Open` after a further transaction. -/
theorem getCanvas_stored_status_monotone_witness :
    ∃ c2 : CanvasConfig,
      getCanvas (execFrom (execOps demoOps) [Op.setPix 6 9 1 0 0 3]) 1 =
        Except.ok c2 ∧
      c2.status ≠ Status.Open :=
  (getCanvas_stored_status_monotone demoOps 1 ((execOps demoOps).canvases 1)
      (getCanvas_eq (by decide))).2 (by decide) [Op.setPix 6 9 1 0 0 3]

/-- Lemma: `claim` on a canvas whose stored flags say complete-and-claimed fails
whoever calls, and the failing transaction leaves the state unchanged. -/
theorem claim_after_claimed_noop {u : ChainState} {b2 sender2 id : Nat}
    {cid2 : String}
    (hex : (u.canvases id).owner ≠ 0)
    (hco : (u.canvases id).isComplete = true)
    (hcl : (u.canvases id).isClaimed = true) :
    resIsOk (claim u b2 sender2 id cid2) = false ∧
    step u (Op.doClaim b2 sender2 id cid2) = u := by
  have herr : claim u b2 sender2 id cid2 =
      .error (if (u.canvases id).owner = sender2 then .CanvasAlreadyClaimed id
              else .NotCanvasOwner id (u.canvases id).owner) :=
    claim_on_claimed hex (Or.inl hco) hcl
  constructor
  · rw [herr]
    rfl
  · dsimp only [step]
    rw [herr]

/-- C2 counterexample: the claim "claim with an empty artwork reference
fails with InvalidArtworkReference" is false on the code, which has no such
check (nor such an error): on the reachable demo state — creator caller,
window elapsed at tick 5, unclaimed — `claim` with the empty reference
succeeds and stores the empty string. -/
theorem claim_empty_ref_accepted_counterexample :
    (demoState.canvases 1).owner = 7 ∧
    (demoState.canvases 1).isClaimed = false ∧
    (demoState.canvases 1).startBlock + (demoState.canvases 1).maxDurationBlocks ≤ 5 ∧
    resIsOk (claim demoState 5 7 1 "") = true ∧
    ((okStateD (claim demoState 5 7 1 "")).canvases 1).imageCid = "" ∧
    ((okStateD (claim demoState 5 7 1 "")).canvases 1).isClaimed = true :=
  ⟨rfl, rfl, by decide, rfl, rfl, rfl⟩

/-- C2 amended: `claim` performs no artwork-reference validation.  For every
canvas complete at the call (stored flag set or window elapsed), unclaimed,
with no token minted and the creator as caller, `claim` succeeds for every
reference — the empty string included — and stores exactly the supplied
reference; the reference is set only once: every immediately following
claim on the canvas fails and leaves the state unchanged. -/
theorem claim_stores_any_ref_once (s : ChainState) (b sender id : Nat)
    (cid : String)
    (hown : (s.canvases id).owner = sender) (h0 : sender ≠ 0)
    (hc : (s.canvases id).isComplete = true ∨
          (s.canvases id).startBlock + (s.canvases id).maxDurationBlocks ≤ b)
    (hncl : (s.canvases id).isClaimed = false)
    (hmint : s.tokenOwner id = 0) :
    resIsOk (claim s b sender id cid) = true ∧
    ((okStateD (claim s b sender id cid)).canvases id).imageCid = cid ∧
    ((okStateD (claim s b sender id cid)).canvases id).isClaimed = true ∧
    ∀ b2 sender2 cid2,
      resIsOk (claim (okStateD (claim s b sender id cid)) b2 sender2 id cid2)
        = false ∧
      step (okStateD (claim s b sender id cid)) (Op.doClaim b2 sender2 id cid2)
        = okStateD (claim s b sender id cid) := by
  rw [claim_success hown h0 hc hncl hmint]
  dsimp only [okStateD]
  refine ⟨rfl, by simp [upd_same], by simp [upd_same], fun b2 sender2 cid2 => ?_⟩
  exact claim_after_claimed_noop (by simp [upd_same, hown, h0])
    (by simp [upd_same]) (by simp [upd_same])

/-- Witness for the amended C2 at a concrete input: the demo canvas, creator
7, empty reference; the follow-up claim attempt uses block 6 and
reference "x". -/
theorem claim_stores_any_ref_once_witness :
    resIsOk (claim demoState 5 7 1 "") = true ∧
    ((okStateD (claim demoState 5 7 1 "")).canvases 1).imageCid = "" ∧
    ((okStateD (claim demoState 5 7 1 "")).canvases 1).isClaimed = true ∧
    resIsOk (claim (okStateD (claim demoState 5 7 1 "")) 6 7 1 "x") = false ∧
    step (okStateD (claim demoState 5 7 1 "")) (Op.doClaim 6 7 1 "x")
      = okStateD (claim demoState 5 7 1 "") := by
  have h := claim_stores_any_ref_once demoState 5 7 1 ""
    (by decide) (by decide) (Or.inr (by decide)) (by decide) (by decide)
  exact ⟨h.1, h.2.1, h.2.2.1, (h.2.2.2 6 7 "x").1, (h.2.2.2 6 7 "x").2⟩
